import Mathlib

/-!
Verification of the Instagram automation dispatcher and activity-lifecycle
tracker.  The definitions below are a shallow embedding of the two source
files of the repository: the automation library (`instagram-check-login.js`,
which also contains the automation functions `followUser`, `likePost`, …)
and the Express server with the `/run` automation route and the in-memory
storage class (`MemStorage`).

JavaScript numbers are IEEE-754 binary64 values.  The shortcode decoder
accumulates `mediaId = mediaId * 64 + alphabet.indexOf(c)` on such numbers,
so every arithmetic operation rounds its exact integer result to the nearest
representable double (53 significant bits, ties to even).  `fpRound` below
is that rounding function on integers; multiplication by 64 and the
following addition each pass through it, exactly as the hardware does.
The model covers the full finite range of binary64 (the fuel 1100 exceeds
the 1024-bit exponent range), overflow to infinity is outside the range any
claim exercises.
-/

/-- Bit length of a natural number, with explicit fuel so that the
definition is structurally recursive and kernel-reducible.  For `n < 2 ^ fuel`
this is the usual bit length. -/
def fpBits : Nat → Nat → Nat
  | 0, _ => 0
  | fuel + 1, n => if n = 0 then 0 else fpBits fuel (n / 2) + 1

/-- Round a natural number to 53 significant bits, round to nearest, ties to
even: the value an IEEE-754 binary64 register holds after an exact integer
computation produced `n`. -/
def fpRoundNat (n : Nat) : Nat :=
  if n < 2 ^ 53 then n
  else
    let k := fpBits 1100 n - 53
    let q := n / 2 ^ k
    let r := n % 2 ^ k
    let half := 2 ^ (k - 1)
    let q2 :=
      if half < r then q + 1
      else if r < half then q
      else if q % 2 = 0 then q else q + 1
    q2 * 2 ^ k

/-- Rounding of an integer to the nearest binary64 value (ties to even).
IEEE rounding is symmetric around zero. -/
def fpRound (x : Int) : Int :=
  if x < 0 then -(fpRoundNat x.natAbs : Int) else (fpRoundNat x.natAbs : Int)

/-- The 64-symbol alphabet of `shortcodeToMediaId`, in the source's
concatenation order. -/
def alphabet : List Char :=
  "ABCDEFGHIJKLMNOPQRSTUVWXYZabcdefghijklmnopqrstuvwxyz0123456789-_".data

/-- First index of a character in a character list, `none` when absent. -/
def idxOfAux : List Char → Char → Option Nat
  | [], _ => none
  | x :: xs, c => if x = c then some 0 else (idxOfAux xs c).map (· + 1)

/-- JavaScript `String.prototype.indexOf` on a character list: the first
index of `c`, and `-1` when `c` does not occur. -/
def jsIndexOf (l : List Char) (c : Char) : Int :=
  match idxOfAux l c with
  | some n => (n : Int)
  | none => -1

/-- Embedding of `shortcodeToMediaId` from the source: fold
`mediaId = mediaId * 64 + alphabet.indexOf(c)` over the characters, on
JavaScript doubles — both the multiplication and the addition round to
binary64.  (The source finally returns `mediaId.toString()`; the numeric
value is what the claims are about.) -/
def shortcodeToMediaId (shortcode : List Char) : Int :=
  shortcode.foldl (fun mediaId c => fpRound (fpRound (mediaId * 64) + jsIndexOf alphabet c)) 0

/-- Modelled from the spec: the exact arbitrary-precision base-64 positional
value `Σ digit_value_i × 64^(n-1-i)` of a short code, computed left to right
as `id = id*64 + value(char)` with an exact integer accumulator.  This is
the value the spec demands; it is compared against the source's
double-precision `shortcodeToMediaId`. -/
def shortcodeValue (shortcode : List Char) : Int :=
  shortcode.foldl (fun mediaId c => mediaId * 64 + jsIndexOf alphabet c) 0

/-!
String splitting in the JavaScript sources.  `parseCookieString` splits on
the two-character separator `"; "` and then on `"="`; the like/unlike/comment
operations extract the shortcode with
`postUrl.split('/p/')[1].split('/')[0].split('?')[0]`.  The splitters below
implement JavaScript `String.prototype.split` (leftmost, non-overlapping
occurrences of a non-empty separator) for the concrete separators used.
-/

/-- Prepend a character to the first piece of a split result. -/
def consHead (c : Char) : List (List Char) → List (List Char)
  | [] => [[c]]
  | r :: rs => (c :: r) :: rs

/-- JavaScript `split` on a single-character separator. -/
def splitChar (sep : Char) : List Char → List (List Char)
  | [] => [[]]
  | c :: rest =>
    if c = sep then [] :: splitChar sep rest
    else consHead c (splitChar sep rest)

/-- JavaScript `split` on the two-character separator `"; "`. -/
def splitSemiSp : List Char → List (List Char)
  | [] => [[]]
  | [c] => [[c]]
  | c :: d :: rest =>
    if c = ';' ∧ d = ' ' then [] :: splitSemiSp rest
    else consHead c (splitSemiSp (d :: rest))

/-- JavaScript `split` on the three-character separator `"/p/"`. -/
def splitSlashP : List Char → List (List Char)
  | [] => [[]]
  | [c] => [[c]]
  | [c, d] => [[c, d]]
  | c :: d :: e :: rest =>
    if c = '/' ∧ d = 'p' ∧ e = '/' then [] :: splitSlashP rest
    else consHead c (splitSlashP (d :: e :: rest))

/-- JavaScript `String.prototype.trim`. -/
def trimChars (l : List Char) : List Char :=
  ((l.dropWhile Char.isWhitespace).reverse.dropWhile Char.isWhitespace).reverse

/-- JavaScript object property assignment `cookies[key] = value` on a
string-keyed object kept as an insertion-ordered association list: an
existing key keeps its position and gets the new value, a new key is
appended. -/
def jsSet : List (List Char × List Char) → List Char → List Char → List (List Char × List Char)
  | [], k, v => [(k, v)]
  | (k0, v0) :: rest, k, v =>
    if k0 = k then (k, v) :: rest else (k0, v0) :: jsSet rest k v

/-- Embedding of `parseCookieString`: split on `"; "`, destructure each part
as `const [key, value] = part.split('=')`, and keep the pair when both `key`
and `value` are truthy (non-empty), trimming both. -/
def parseCookieString (cookieStr : List Char) : List (List Char × List Char) :=
  (splitSemiSp cookieStr).foldl
    (fun cookies part =>
      match splitChar '=' part with
      | key :: value :: _ =>
        if !key.isEmpty && !value.isEmpty then
          jsSet cookies (trimChars key) (trimChars value)
        else cookies
      | _ => cookies)
    []

/-- Per-segment extraction underlying `parseCookieString`: the key/value
pair a segment contributes, or `none` when the segment is dropped (no `"="`,
or empty key, or empty value). -/
def segKV (part : List Char) : Option (List Char × List Char) :=
  match splitChar '=' part with
  | key :: value :: _ =>
    if !key.isEmpty && !value.isEmpty then some (trimChars key, trimChars value)
    else none
  | _ => none

/-- Embedding of the shortcode extraction
`postUrl.split('/p/')[1].split('/')[0].split('?')[0]` used by
like/unlike/comment.  Accessing `[1]` of a one-element split result is
`undefined` in JavaScript and the subsequent `.split` raises a `TypeError`,
caught by the surrounding `try` — modelled as `none`. -/
def extractShortcode (postUrl : String) : Option (List Char) :=
  match splitSlashP postUrl.data with
  | _ :: second :: _ =>
    some ((splitChar '?' ((splitChar '/' second).headD [])).headD [])
  | _ => none

/-!
The Remote Action Client (`followUser`, `unfollowUser`, `likePost`,
`unlikePost`, `commentPost`, `deleteComment`, `getInstagramProfileInfo`,
`removeDuplicateAccounts`).  Each function body is wrapped in
`try { … } catch (error) { return { success: false, message: … } }`, so every
exit returns a result object.  The network is an oracle: for one invocation,
`NetOracle.profile` is what the `web_profile_info` GET would produce
(`Except.error m` = the axios promise rejects with error message `m`,
covering DNS/timeout/TLS faults and, under axios's default `validateStatus`,
non-2xx statuses), `NetOracle.mutation` likewise for the mutating POST, and
`NetOracle.tyErr` is the engine message of the `TypeError` raised by the
unguarded access `profileResponse.data.data.user.id` when the payload lacks
that path.  Request headers (cookie parse, csrftoken) only shape the
outbound request, which the oracle absorbs; the cookie parse is kept as a
dead binding to mirror the source.
-/

/-- Resolved profile response: HTTP status and, when `data.data.user` is
present, its `id`. -/
structure ProfileResp where
  status : Nat
  userId : Option String
deriving DecidableEq

instance {ε α : Type} [DecidableEq ε] [DecidableEq α] : DecidableEq (Except ε α) := by
  intro a b
  cases a <;> cases b
  case error.error e1 e2 =>
    exact if h : e1 = e2 then .isTrue (by rw [h]) else .isFalse (by intro hh; cases hh; exact h rfl)
  case error.ok e1 a2 => exact .isFalse (by intro hh; cases hh)
  case ok.error a1 e2 => exact .isFalse (by intro hh; cases hh)
  case ok.ok a1 a2 =>
    exact if h : a1 = a2 then .isTrue (by rw [h]) else .isFalse (by intro hh; cases hh; exact h rfl)

/-- Network oracle for one client invocation (see section comment). -/
structure NetOracle where
  profile : Except String ProfileResp
  tyErr : String
  mutation : Except String Nat
deriving DecidableEq

/-- Normalized result `{ success, message, data? }` returned by every client
operation.  `data` carries the profile payload (modelled by the user id). -/
structure ActionResult where
  success : Bool
  message : String
  data : Option String := none
deriving DecidableEq

/-- Embedding of `followUser`: resolve the user id from the username, then
POST the follow mutation; every fault becomes a failure result. -/
def followUser (username _cookieStr : String) (net : NetOracle) : ActionResult :=
  match net.profile with
  | .error e => { success := false, message := "Error following " ++ username ++ ": " ++ e }
  | .ok pr =>
    if pr.status ≠ 200 then
      { success := false, message := "Failed to get profile info for " ++ username }
    else
      match pr.userId with
      | none => { success := false, message := "Error following " ++ username ++ ": " ++ net.tyErr }
      | some _userId =>
        match net.mutation with
        | .error e => { success := false, message := "Error following " ++ username ++ ": " ++ e }
        | .ok st =>
          { success := st == 200,
            message := if st == 200 then "Successfully followed " ++ username
                       else "Failed to follow " ++ username }

/-- Embedding of `unfollowUser`: mirror of `followUser` against the
`friendships/destroy` endpoint. -/
def unfollowUser (username _cookieStr : String) (net : NetOracle) : ActionResult :=
  match net.profile with
  | .error e => { success := false, message := "Error unfollowing " ++ username ++ ": " ++ e }
  | .ok pr =>
    if pr.status ≠ 200 then
      { success := false, message := "Failed to get profile info for " ++ username }
    else
      match pr.userId with
      | none => { success := false, message := "Error unfollowing " ++ username ++ ": " ++ net.tyErr }
      | some _userId =>
        match net.mutation with
        | .error e => { success := false, message := "Error unfollowing " ++ username ++ ": " ++ e }
        | .ok st =>
          { success := st == 200,
            message := if st == 200 then "Successfully unfollowed " ++ username
                       else "Failed to unfollow " ++ username }

/-- Embedding of `likePost`: extract the shortcode (failing fast on a
malformed URL), derive the media id, POST the like mutation. -/
def likePost (postUrl _cookieStr : String) (net : NetOracle) : ActionResult :=
  match extractShortcode postUrl with
  | none => { success := false, message := "Invalid post URL format" }
  | some sc =>
    let _mediaId := shortcodeToMediaId sc
    match net.mutation with
    | .error e => { success := false, message := "Error liking post: " ++ e }
    | .ok st =>
      { success := st == 200,
        message := if st == 200 then "Successfully liked post: " ++ postUrl
                   else "Failed to like post: " ++ postUrl }

/-- Embedding of `unlikePost`. -/
def unlikePost (postUrl _cookieStr : String) (net : NetOracle) : ActionResult :=
  match extractShortcode postUrl with
  | none => { success := false, message := "Invalid post URL format" }
  | some sc =>
    let _mediaId := shortcodeToMediaId sc
    match net.mutation with
    | .error e => { success := false, message := "Error unliking post: " ++ e }
    | .ok st =>
      { success := st == 200,
        message := if st == 200 then "Successfully unliked post: " ++ postUrl
                   else "Failed to unlike post: " ++ postUrl }

/-- Embedding of `commentPost`: same media-id derivation as `likePost`, then
POST carrying the comment text (the text only shapes the request body, which
the oracle absorbs). -/
def commentPost (postUrl _commentText _cookieStr : String) (net : NetOracle) : ActionResult :=
  match extractShortcode postUrl with
  | none => { success := false, message := "Invalid post URL format" }
  | some sc =>
    let _mediaId := shortcodeToMediaId sc
    match net.mutation with
    | .error e => { success := false, message := "Error commenting on post: " ++ e }
    | .ok st =>
      { success := st == 200,
        message := if st == 200 then "Successfully commented on post: " ++ postUrl
                   else "Failed to comment on post: " ++ postUrl }

/-- Embedding of `deleteComment`: POST keyed by the raw comment id, no
media-id derivation. -/
def deleteComment (_postUrl commentId _cookieStr : String) (net : NetOracle) : ActionResult :=
  match net.mutation with
  | .error e => { success := false, message := "Error deleting comment: " ++ e }
  | .ok st =>
    { success := st == 200,
      message := if st == 200 then "Successfully deleted comment: " ++ commentId
                 else "Failed to delete comment: " ++ commentId }

/-- Embedding of `getInstagramProfileInfo`: GET the profile and, on a 200
response whose payload has `data.data.user` (access is guarded, so a missing
path does not raise), return it under `data`. -/
def getInstagramProfileInfo (username _cookieStr : String) (net : NetOracle) : ActionResult :=
  match net.profile with
  | .error e => { success := false, message := "Error getting profile info: " ++ e }
  | .ok pr =>
    if pr.status == 200 && pr.userId.isSome then
      { success := true,
        message := "Successfully retrieved profile info for " ++ username,
        data := pr.userId }
    else
      { success := false, message := "Failed to retrieve profile info for " ++ username }

/-- Embedding of `removeDuplicateAccounts`: the source returns a simulated
success without any network call. -/
def removeDuplicateAccounts (_cookieStr : String) : ActionResult :=
  { success := true, message := "Duplicate account check completed. No duplicates found." }

/-!
The in-memory storage (`MemStorage` in the server file) and the `/run`
automation route.  Only the members the dispatcher claims touch are
embedded: the cookie list with `getCookiesByUserId`, and the activity log
map with `createActivityLog`, `updateActivityLog` and
`getActivityLogsByUserId`.  `activityLogs` is a JavaScript
`Map<number, log>` iterated via `values()`, i.e. an insertion-ordered list
with unique ids; `mapSet` is `Map.set` on that representation.  `new Date()`
timestamps are supplied by the caller as a `Nat` parameter (`now`).
`updateActivityLog` is embedded for the `{status}` partial that the route
passes: merging sets that field and refreshes `updatedAt`.
-/

/-- Stored session credential (the cookie record). -/
structure Cookie where
  id : Nat
  userId : Nat
  name : String
  cookieString : String
  createdAt : Nat
deriving DecidableEq

/-- One activity log entry, as created and updated by the `/run` route. -/
structure ActivityLog where
  id : Nat
  userId : Nat
  type : String
  accountUsername : String
  action : String
  status : String
  createdAt : Nat
  updatedAt : Option Nat
deriving DecidableEq

/-- The fields of the `logEntry` object the route builds before creation. -/
structure LogEntryInput where
  userId : Nat
  type : String
  accountUsername : String
  action : String
  status : String
deriving DecidableEq

/-- The slice of `MemStorage` the dispatcher uses. -/
structure MemStorage where
  cookies : List Cookie
  activityLogs : List ActivityLog
  cookieId : Nat
  logId : Nat
deriving DecidableEq

/-- `Map.set` on the insertion-ordered value list: replace in place when the
id is present, append otherwise. -/
def mapSet (logs : List ActivityLog) (id : Nat) (v : ActivityLog) : List ActivityLog :=
  if logs.any (fun e => e.id == id) then
    logs.map (fun e => if e.id == id then v else e)
  else logs ++ [v]

/-- Embedding of `MemStorage.getCookiesByUserId`. -/
def getCookiesByUserId (st : MemStorage) (userId : Nat) : List Cookie :=
  st.cookies.filter (fun c => c.userId == userId)

/-- Embedding of `MemStorage.createActivityLog`: assign `id = logId++`, set
`createdAt`, store. -/
def createActivityLog (st : MemStorage) (input : LogEntryInput) (now : Nat) :
    ActivityLog × MemStorage :=
  let id := st.logId
  let newLog : ActivityLog :=
    { id := id, userId := input.userId, type := input.type,
      accountUsername := input.accountUsername, action := input.action,
      status := input.status, createdAt := now, updatedAt := none }
  (newLog, { st with activityLogs := mapSet st.activityLogs id newLog, logId := st.logId + 1 })

/-- Embedding of `MemStorage.updateActivityLog` at the `{status}` partial:
look the id up, merge the new status, refresh `updatedAt`; return `false`
(here `none`) without touching the store when the id is absent. -/
def updateActivityLog (st : MemStorage) (id : Nat) (newStatus : String) (now : Nat) :
    Option ActivityLog × MemStorage :=
  match st.activityLogs.find? (fun e => e.id == id) with
  | none => (none, st)
  | some log =>
    let updatedLog := { log with status := newStatus, updatedAt := some now }
    (some updatedLog, { st with activityLogs := mapSet st.activityLogs id updatedLog })

/-- Descending-by-creation-time comparison used by
`getActivityLogsByUserId`'s `sort((a, b) => b.createdAt - a.createdAt)`. -/
def logGE (a b : ActivityLog) : Prop := b.createdAt ≤ a.createdAt

instance : DecidableRel logGE := fun a b => Nat.decLe b.createdAt a.createdAt

instance : IsTotal ActivityLog logGE := ⟨fun a b => Nat.le_total b.createdAt a.createdAt⟩

instance : IsTrans ActivityLog logGE := ⟨fun _ _ _ h1 h2 => Nat.le_trans h2 h1⟩

/-- Embedding of `MemStorage.getActivityLogsByUserId`: the user's entries,
sorted newest-first, truncated to `limit` (source default 50). -/
def getActivityLogsByUserId (st : MemStorage) (userId : Nat) (limit : Nat) : List ActivityLog :=
  (List.insertionSort logGE (st.activityLogs.filter (fun l => l.userId == userId))).take limit

/-- The JSON body of a `/run` request:
`const { type, username, postUrl, commentText, commentId } = req.body`,
with `none` for absent fields (`undefined`). -/
structure RunReq where
  type : String
  username : Option String := none
  postUrl : Option String := none
  commentText : Option String := none
  commentId : Option String := none
deriving DecidableEq

/-- JavaScript truthiness of a possibly-absent string: `undefined` and `""`
are falsy. -/
def jsTruthy : Option String → Bool
  | none => false
  | some s => s != ""

/-- JavaScript `x || d` for a possibly-absent string. -/
def jsOr (o : Option String) (d : String) : String :=
  match o with
  | none => d
  | some s => if s == "" then d else s

/-- What the `/run` route produces: the HTTP status, the JSON body (the
`ActionResult` or a validation failure body), and the storage afterwards. -/
structure RunOutcome where
  httpStatus : Nat
  body : ActionResult
  storage : MemStorage
deriving DecidableEq

/-- Embedding of the `/run` route: resolve the user's cookies (failing with
400 when none), build the `logEntry` skeleton, then switch on `type` — each
handled case validates its required fields (400, no log write, on failure),
creates the pending entry, invokes the client operation, updates the entry
to `success`/`failed` according to `result.success`, and responds with the
result; a type outside the eight `case`s falls through to the initial
`Unknown automation type` failure with no log write. -/
def runAutomation (st : MemStorage) (userId : Nat) (req : RunReq) (net : NetOracle)
    (now : Nat) : RunOutcome :=
  match getCookiesByUserId st userId with
  | [] =>
    ⟨400, { success := false,
            message := "No cookies available. Please add an account or cookie first." }, st⟩
  | c :: _ =>
    let cookieValue := c.cookieString
    let logEntry : LogEntryInput :=
      { userId := userId, type := req.type, accountUsername := jsOr req.username "Unknown",
        action := "Pending", status := "pending" }
    if req.type == "follow" then
      if !jsTruthy req.username then
        ⟨400, { success := false, message := "Username is required" }, st⟩
      else
        let entry := createActivityLog st
          { logEntry with action := "Followed @" ++ req.username.getD "" } now
        let result := followUser (req.username.getD "") cookieValue net
        ⟨200, result,
          (updateActivityLog entry.2 entry.1.id
            (if result.success then "success" else "failed") now).2⟩
    else if req.type == "unfollow" then
      if !jsTruthy req.username then
        ⟨400, { success := false, message := "Username is required" }, st⟩
      else
        let entry := createActivityLog st
          { logEntry with action := "Unfollowed @" ++ req.username.getD "" } now
        let result := unfollowUser (req.username.getD "") cookieValue net
        ⟨200, result,
          (updateActivityLog entry.2 entry.1.id
            (if result.success then "success" else "failed") now).2⟩
    else if req.type == "like" then
      if !jsTruthy req.postUrl then
        ⟨400, { success := false, message := "Post URL is required" }, st⟩
      else
        let entry := createActivityLog st
          { logEntry with action := "Liked post: " ++ req.postUrl.getD "" } now
        let result := likePost (req.postUrl.getD "") cookieValue net
        ⟨200, result,
          (updateActivityLog entry.2 entry.1.id
            (if result.success then "success" else "failed") now).2⟩
    else if req.type == "unlike" then
      if !jsTruthy req.postUrl then
        ⟨400, { success := false, message := "Post URL is required" }, st⟩
      else
        let entry := createActivityLog st
          { logEntry with action := "Unliked post: " ++ req.postUrl.getD "" } now
        let result := unlikePost (req.postUrl.getD "") cookieValue net
        ⟨200, result,
          (updateActivityLog entry.2 entry.1.id
            (if result.success then "success" else "failed") now).2⟩
    else if req.type == "comment" then
      if !jsTruthy req.postUrl || !jsTruthy req.commentText then
        ⟨400, { success := false, message := "Post URL and comment text are required" }, st⟩
      else
        let entry := createActivityLog st
          { logEntry with action := "Commented on post: " ++ req.postUrl.getD "" } now
        let result := commentPost (req.postUrl.getD "") (req.commentText.getD "") cookieValue net
        ⟨200, result,
          (updateActivityLog entry.2 entry.1.id
            (if result.success then "success" else "failed") now).2⟩
    else if req.type == "delete_comment" then
      if !jsTruthy req.commentId then
        ⟨400, { success := false, message := "Comment ID is required" }, st⟩
      else
        let entry := createActivityLog st
          { logEntry with action := "Deleted comment: " ++ req.commentId.getD "" } now
        let result := deleteComment (jsOr req.postUrl "") (req.commentId.getD "") cookieValue net
        ⟨200, result,
          (updateActivityLog entry.2 entry.1.id
            (if result.success then "success" else "failed") now).2⟩
    else if req.type == "profile_info" then
      if !jsTruthy req.username then
        ⟨400, { success := false, message := "Username is required" }, st⟩
      else
        let entry := createActivityLog st
          { logEntry with action := "Retrieved profile info: @" ++ req.username.getD "" } now
        let result := getInstagramProfileInfo (req.username.getD "") cookieValue net
        ⟨200, result,
          (updateActivityLog entry.2 entry.1.id
            (if result.success then "success" else "failed") now).2⟩
    else if req.type == "duplicates" then
      let entry := createActivityLog st
        { logEntry with action := "Removed duplicate accounts" } now
      let result := removeDuplicateAccounts cookieValue
      ⟨200, result,
        (updateActivityLog entry.2 entry.1.id
          (if result.success then "success" else "failed") now).2⟩
    else
      ⟨200, { success := false, message := "Unknown automation type" }, st⟩

/-- The per-kind required-field validation of the `/run` switch, as a
predicate: true exactly when the request reaches the log-create/invoke/
update sequence of its case. -/
def requiredFieldsOk (req : RunReq) : Bool :=
  if req.type == "follow" then jsTruthy req.username
  else if req.type == "unfollow" then jsTruthy req.username
  else if req.type == "like" then jsTruthy req.postUrl
  else if req.type == "unlike" then jsTruthy req.postUrl
  else if req.type == "comment" then jsTruthy req.postUrl && jsTruthy req.commentText
  else if req.type == "delete_comment" then jsTruthy req.commentId
  else if req.type == "profile_info" then jsTruthy req.username
  else if req.type == "duplicates" then true
  else false

/-!
Fixtures used by the witnesses below.
-/

/-- Credential fixture used by the witnesses. -/
def sampleCookie : Cookie :=
  { id := 1, userId := 1, name := "main",
    cookieString := "csrftoken=abc123; sessionid=xyz", createdAt := 0 }

/-- Storage fixture: one stored credential for user 1, empty activity log. -/
def sampleStorage : MemStorage :=
  { cookies := [sampleCookie], activityLogs := [], cookieId := 2, logId := 1 }

/-- Oracle fixture: profile lookup resolves id `"55"`, mutation returns 200. -/
def sampleNet : NetOracle :=
  { profile := .ok { status := 200, userId := some "55" }, tyErr := "TypeError",
    mutation := .ok 200 }

/-- Oracle fixture whose network calls all reject with a transport fault. -/
def faultNet : NetOracle :=
  { profile := .error "getaddrinfo ENOTFOUND www.instagram.com", tyErr := "TypeError",
    mutation := .error "getaddrinfo ENOTFOUND www.instagram.com" }

/-- Oracle fixture: profile resolution succeeds, the mutation rejects. -/
def mixedNet : NetOracle :=
  { profile := .ok { status := 200, userId := some "55" }, tyErr := "TypeError",
    mutation := .error "getaddrinfo ENOTFOUND www.instagram.com" }

/-- Log-entry fixtures for the `C8` witness: two entries of user 1 (created
at times 5 and 9) and one of user 2. -/
def sampleLogA : ActivityLog :=
  { id := 1, userId := 1, type := "follow", accountUsername := "alice",
    action := "Followed @alice", status := "success", createdAt := 5, updatedAt := some 5 }

def sampleLogB : ActivityLog :=
  { id := 2, userId := 1, type := "like", accountUsername := "Unknown",
    action := "Liked post: p", status := "failed", createdAt := 9, updatedAt := some 9 }

def sampleLogC : ActivityLog :=
  { id := 3, userId := 2, type := "follow", accountUsername := "bob",
    action := "Followed @bob", status := "success", createdAt := 7, updatedAt := some 7 }

def sampleStorageWithLogs : MemStorage :=
  { cookies := [sampleCookie], activityLogs := [sampleLogA, sampleLogB, sampleLogC],
    cookieId := 2, logId := 4 }

/-!
Arithmetic facts about the shortcode decoder: digit values of alphabet
characters, the positional decomposition of the exact fold, its bounds and
injectivity, and the range on which the double-precision fold agrees with
the exact one.
-/

theorem fpRoundNat_eq_self {n : Nat} (h : n < 2 ^ 53) : fpRoundNat n = n := by
  rw [fpRoundNat, if_pos h]

theorem fpRound_eq_self {x : Int} (h0 : 0 ≤ x) (h : x < 2 ^ 53) : fpRound x = x := by
  have hx : (x.natAbs : Int) = x := Int.natAbs_of_nonneg h0
  have hn : x.natAbs < 2 ^ 53 := by
    have : ((2 : Int) ^ 53) = ((2 ^ 53 : Nat) : Int) := by norm_num
    omega
  rw [fpRound, if_neg (not_lt.mpr h0), fpRoundNat_eq_self hn, hx]

theorem idxOfAux_get {l : List Char} {c : Char} {n : Nat} (h : idxOfAux l c = some n) :
    l.get? n = some c := by
  induction l generalizing n with
  | nil => simp [idxOfAux] at h
  | cons x xs ih =>
    rw [idxOfAux] at h
    by_cases hx : x = c
    · rw [if_pos hx] at h
      cases h
      simpa using hx
    · rw [if_neg hx, Option.map_eq_some'] at h
      obtain ⟨m, hm, rfl⟩ := h
      simpa using ih hm

theorem idxOfAux_isSome_of_mem {l : List Char} {c : Char} (h : c ∈ l) :
    ∃ n, idxOfAux l c = some n := by
  induction l with
  | nil => simp at h
  | cons x xs ih =>
    by_cases hx : x = c
    · exact ⟨0, by rw [idxOfAux, if_pos hx]⟩
    · have hmem : c ∈ xs := by
        rcases List.mem_cons.mp h with h1 | h1
        · exact absurd h1.symm hx
        · exact h1
      obtain ⟨m, hm⟩ := ih hmem
      exact ⟨m + 1, by rw [idxOfAux, if_neg hx, hm]; rfl⟩

theorem idxOfAux_eq_none_of_not_mem {l : List Char} {c : Char} (h : c ∉ l) :
    idxOfAux l c = none := by
  induction l with
  | nil => rfl
  | cons x xs ih =>
    have hx : x ≠ c := fun hh => h (hh ▸ List.mem_cons_self x xs)
    have hmem : c ∉ xs := fun hh => h (List.mem_cons_of_mem x hh)
    rw [idxOfAux, if_neg hx, ih hmem]
    rfl

theorem jsIndexOf_eq_neg_one {l : List Char} {c : Char} (h : c ∉ l) :
    jsIndexOf l c = -1 := by
  rw [jsIndexOf, idxOfAux_eq_none_of_not_mem h]

theorem jsIndexOf_bounds {c : Char} (h : c ∈ alphabet) :
    0 ≤ jsIndexOf alphabet c ∧ jsIndexOf alphabet c < 64 := by
  obtain ⟨n, hn⟩ := idxOfAux_isSome_of_mem h
  have hlen : n < alphabet.length := by
    have := idxOfAux_get hn
    exact (List.get?_eq_some.mp this).1
  have h64 : alphabet.length = 64 := by decide
  have hj : jsIndexOf alphabet c = (n : Int) := by simp [jsIndexOf, hn]
  rw [hj]
  constructor
  · exact Int.ofNat_nonneg n
  · exact_mod_cast h64 ▸ hlen

theorem jsIndexOf_inj {c1 c2 : Char} (h1 : c1 ∈ alphabet) (h2 : c2 ∈ alphabet)
    (h : jsIndexOf alphabet c1 = jsIndexOf alphabet c2) : c1 = c2 := by
  obtain ⟨n1, hn1⟩ := idxOfAux_isSome_of_mem h1
  obtain ⟨n2, hn2⟩ := idxOfAux_isSome_of_mem h2
  have hj1 : jsIndexOf alphabet c1 = (n1 : Int) := by simp [jsIndexOf, hn1]
  have hj2 : jsIndexOf alphabet c2 = (n2 : Int) := by simp [jsIndexOf, hn2]
  rw [hj1, hj2] at h
  have hnn : n1 = n2 := by exact_mod_cast h
  have g1 := idxOfAux_get hn1
  have g2 := idxOfAux_get hn2
  rw [hnn, g2] at g1
  exact (Option.some_injective _ g1).symm

theorem valueFold_decomp (l : List Char) (acc : Int) :
    l.foldl (fun a c => a * 64 + jsIndexOf alphabet c) acc
      = acc * 64 ^ l.length + l.foldl (fun a c => a * 64 + jsIndexOf alphabet c) 0 := by
  induction l generalizing acc with
  | nil => simp
  | cons c t ih =>
    simp only [List.foldl_cons, List.length_cons]
    rw [ih (acc * 64 + jsIndexOf alphabet c), ih (0 * 64 + jsIndexOf alphabet c)]
    ring

theorem valueFold_bounds {l : List Char} (h : ∀ c ∈ l, c ∈ alphabet) :
    0 ≤ l.foldl (fun a c => a * 64 + jsIndexOf alphabet c) 0 ∧
      l.foldl (fun a c => a * 64 + jsIndexOf alphabet c) 0 < 64 ^ l.length := by
  induction l with
  | nil => simp
  | cons c t ih =>
    have hd := jsIndexOf_bounds (h c (List.mem_cons_self c t))
    have ht := ih (fun x hx => h x (List.mem_cons_of_mem c hx))
    have hB : (0 : Int) < 64 ^ t.length := by positivity
    simp only [List.foldl_cons, List.length_cons]
    rw [valueFold_decomp t (0 * 64 + jsIndexOf alphabet c)]
    constructor
    · nlinarith [hd.1, ht.1]
    · have hstep : (0 * 64 + jsIndexOf alphabet c) * 64 ^ t.length
          + t.foldl (fun a c => a * 64 + jsIndexOf alphabet c) 0
          < (jsIndexOf alphabet c + 1) * 64 ^ t.length := by nlinarith [ht.2]
      have hle : (jsIndexOf alphabet c + 1) * 64 ^ t.length ≤ 64 * 64 ^ t.length := by
        have : jsIndexOf alphabet c + 1 ≤ 64 := hd.2
        exact mul_le_mul_of_nonneg_right this (le_of_lt hB)
      calc (0 * 64 + jsIndexOf alphabet c) * 64 ^ t.length
            + t.foldl (fun a c => a * 64 + jsIndexOf alphabet c) 0
          < (jsIndexOf alphabet c + 1) * 64 ^ t.length := hstep
        _ ≤ 64 * 64 ^ t.length := hle
        _ = 64 ^ (t.length + 1) := by ring

theorem valueFold_inj {l1 l2 : List Char} (h1 : ∀ c ∈ l1, c ∈ alphabet)
    (h2 : ∀ c ∈ l2, c ∈ alphabet) (hlen : l1.length = l2.length)
    (h : l1.foldl (fun a c => a * 64 + jsIndexOf alphabet c) 0
        = l2.foldl (fun a c => a * 64 + jsIndexOf alphabet c) 0) : l1 = l2 := by
  induction l1 generalizing l2 with
  | nil =>
    cases l2 with
    | nil => rfl
    | cons c2 t2 => simp at hlen
  | cons c1 t1 ih =>
    cases l2 with
    | nil => simp at hlen
    | cons c2 t2 =>
      have hlen' : t1.length = t2.length := by simpa using hlen
      have hd1 := jsIndexOf_bounds (h1 c1 (List.mem_cons_self c1 t1))
      have hd2 := jsIndexOf_bounds (h2 c2 (List.mem_cons_self c2 t2))
      have hb1 := valueFold_bounds (fun x hx => h1 x (List.mem_cons_of_mem c1 hx))
      have hb2 := valueFold_bounds (fun x hx => h2 x (List.mem_cons_of_mem c2 hx))
      simp only [List.foldl_cons] at h
      rw [valueFold_decomp t1 (0 * 64 + jsIndexOf alphabet c1),
        valueFold_decomp t2 (0 * 64 + jsIndexOf alphabet c2)] at h
      rw [hlen'] at h
      have hB : (0 : Int) < 64 ^ t2.length := by positivity
      have hdeq : jsIndexOf alphabet c1 = jsIndexOf alphabet c2 := by
        by_contra hne
        rcases lt_or_gt_of_ne hne with hlt | hgt
        · have : jsIndexOf alphabet c1 + 1 ≤ jsIndexOf alphabet c2 := hlt
          nlinarith [hb1.1, hb1.2, hb2.1, hb2.2, hlen' ▸ hb1.2]
        · have : jsIndexOf alphabet c2 + 1 ≤ jsIndexOf alphabet c1 := hgt
          nlinarith [hb1.1, hb1.2, hb2.1, hb2.2, hlen' ▸ hb1.2]
      have hveq : t1.foldl (fun a c => a * 64 + jsIndexOf alphabet c) 0
          = t2.foldl (fun a c => a * 64 + jsIndexOf alphabet c) 0 := by
        rw [hdeq] at h
        linarith
      have hc := jsIndexOf_inj (h1 c1 (List.mem_cons_self c1 t1))
        (h2 c2 (List.mem_cons_self c2 t2)) hdeq
      have ht := ih (fun x hx => h1 x (List.mem_cons_of_mem c1 hx))
        (fun x hx => h2 x (List.mem_cons_of_mem c2 hx)) hlen' hveq
      rw [hc, ht]

theorem jsFold_eq_valueFold {l : List Char} :
    ∀ acc : Int, (∀ c ∈ l, c ∈ alphabet) → 0 ≤ acc →
      (acc + 1) * 64 ^ l.length ≤ 2 ^ 53 →
      l.foldl (fun mediaId c => fpRound (fpRound (mediaId * 64) + jsIndexOf alphabet c)) acc
        = l.foldl (fun a c => a * 64 + jsIndexOf alphabet c) acc := by
  induction l with
  | nil => intro acc _ _ _; rfl
  | cons c t ih =>
    intro acc hok hnn hbound
    have hd := jsIndexOf_bounds (hok c (List.mem_cons_self c t))
    have h64 : (64 : Int) ≤ 64 ^ (c :: t).length := by
      have h1 : (64 : Int) ^ 1 ≤ 64 ^ (c :: t).length := by
        apply pow_le_pow_right₀ (by norm_num)
        simp
      simpa using h1
    have hstep : (acc + 1) * 64 ≤ 2 ^ 53 := by
      have := mul_le_mul_of_nonneg_left h64 (by linarith : (0 : Int) ≤ acc + 1)
      linarith
    have hm1 : fpRound (acc * 64) = acc * 64 :=
      fpRound_eq_self (by positivity) (by linarith)
    have hm2 : fpRound (acc * 64 + jsIndexOf alphabet c) = acc * 64 + jsIndexOf alphabet c :=
      fpRound_eq_self (by linarith [hd.1]) (by linarith [hd.2])
    simp only [List.foldl_cons, hm1, hm2]
    apply ih (acc * 64 + jsIndexOf alphabet c)
      (fun x hx => hok x (List.mem_cons_of_mem c hx)) (by linarith [hd.1])
    have haccstep : acc * 64 + jsIndexOf alphabet c + 1 ≤ (acc + 1) * 64 := by
      linarith [hd.2]
    have hBpos : (0 : Int) ≤ 64 ^ t.length := by positivity
    calc (acc * 64 + jsIndexOf alphabet c + 1) * 64 ^ t.length
        ≤ (acc + 1) * 64 * 64 ^ t.length := mul_le_mul_of_nonneg_right haccstep hBpos
      _ = (acc + 1) * 64 ^ (t.length + 1) := by ring
      _ ≤ 2 ^ 53 := by simpa using hbound

set_option maxRecDepth 100000 in
/-- `C3`: the short-code-to-media-identifier function was claimed to return
exactly the base-64 positional value with arbitrary-precision semantics for
every short code over the alphabet.  This fails: the source accumulates on
double-precision numbers, and for the nine-character code `"_________"` the
exact value `64^9 - 1 = 2^54 - 1` is not representable in 53 significant
bits; ties-to-even rounding yields `2^54` instead. -/
theorem shortcode_double_rounding_cex :
    (∀ c ∈ List.replicate 9 '_', c ∈ alphabet) ∧
      shortcodeToMediaId (List.replicate 9 '_') = 18014398509481984 ∧
      shortcodeValue (List.replicate 9 '_') = 18014398509481983 ∧
      shortcodeToMediaId (List.replicate 9 '_') ≠ shortcodeValue (List.replicate 9 '_') := by
  refine ⟨?_, ?_, ?_, ?_⟩ <;> decide

/-- `C3` (amended): for every short code over the 64-symbol alphabet of
length at most 8 — so that every intermediate accumulator stays below
`2^53`, where binary64 arithmetic is exact — the function returns exactly
the base-64 positional value `Σ digit_value_i × 64^(n-1-i)`, computed as
`id = id*64 + value(char)` left to right.  For longer codes the source's
double-precision accumulator can round (see the counterexample). -/
theorem shortcode_exact_for_short_codes {l : List Char}
    (hok : ∀ c ∈ l, c ∈ alphabet) (hlen : l.length ≤ 8) :
    shortcodeToMediaId l = shortcodeValue l := by
  rw [shortcodeToMediaId, shortcodeValue]
  apply jsFold_eq_valueFold 0 hok le_rfl
  have h1 : (64 : Int) ^ l.length ≤ 64 ^ 8 := pow_le_pow_right₀ (by norm_num) hlen
  have h2 : (64 : Int) ^ 8 ≤ 2 ^ 53 := by norm_num
  linarith

/-- Witness for `C3` (amended) at the spec's own example code `"ABC123"`. -/
theorem shortcode_exact_witness :
    shortcodeToMediaId "ABC123".data = shortcodeValue "ABC123".data :=
  shortcode_exact_for_short_codes (by decide) (by decide)

set_option maxRecDepth 100000 in
/-- `C4`: derivation was claimed deterministic (it is — the decoder is a
pure function) and such that changing one character always changes the
output.  The second part fails: `"gAAAAAAAA"` and `"gAAAAAAAB"` differ only
in their last character, yet both decode to `2^53` — the exact values
`2^53` and `2^53 + 1` round to the same double. -/
theorem shortcode_one_char_collision_cex :
    shortcodeToMediaId "gAAAAAAAA".data = shortcodeToMediaId "gAAAAAAAB".data ∧
      "gAAAAAAAA".data ≠ "gAAAAAAAB".data ∧
      "gAAAAAAAA".data.length = "gAAAAAAAB".data.length ∧
      "gAAAAAAAA".data.take 8 = "gAAAAAAAB".data.take 8 ∧
      (∀ c ∈ "gAAAAAAAA".data, c ∈ alphabet) ∧ (∀ c ∈ "gAAAAAAAB".data, c ∈ alphabet) := by
  refine ⟨?_, ?_, ?_, ?_, ?_, ?_⟩ <;> decide

/-- `C4` (amended): the derivation is deterministic, and on short codes over
the alphabet of equal length at most 8 it is injective — in particular
changing any one character of such a code changes the output.  (For longer
codes double-precision rounding can merge neighbouring values, see the
counterexample.) -/
theorem shortcode_deterministic_and_injective (l1 l2 : List Char) :
    shortcodeToMediaId l1 = shortcodeToMediaId l1 ∧
      ((∀ c ∈ l1, c ∈ alphabet) → (∀ c ∈ l2, c ∈ alphabet) →
        l1.length = l2.length → l1.length ≤ 8 → l1 ≠ l2 →
        shortcodeToMediaId l1 ≠ shortcodeToMediaId l2) := by
  refine ⟨rfl, fun h1 h2 hlen hlen8 hne heq => hne ?_⟩
  rw [shortcode_exact_for_short_codes h1 hlen8,
    shortcode_exact_for_short_codes h2 (hlen ▸ hlen8)] at heq
  exact valueFold_inj h1 h2 hlen heq

/-- Witness for `C4` (amended): two 6-character codes differing in one
character decode to different identifiers. -/
theorem shortcode_injective_witness :
    shortcodeToMediaId "ABC123".data ≠ shortcodeToMediaId "ABC124".data :=
  (shortcode_deterministic_and_injective "ABC123".data "ABC124".data).2
    (by decide) (by decide) (by decide) (by decide) (by decide)

/-- `C10`: the decoder is total over all strings (in this embedding it is a
total function — the source has no error branch to take), and a character
outside the 64-symbol alphabet contributes the `indexOf` miss value `-1` to
the accumulator: appending such a character performs the same
multiply-and-add step with digit `-1`. -/
theorem shortcode_total_out_of_alphabet {c : Char} (h : c ∉ alphabet) :
    jsIndexOf alphabet c = -1 ∧
      ∀ l : List Char,
        shortcodeToMediaId (l ++ [c])
          = fpRound (fpRound (shortcodeToMediaId l * 64) + (-1)) := by
  refine ⟨jsIndexOf_eq_neg_one h, fun l => ?_⟩
  rw [shortcodeToMediaId, shortcodeToMediaId, List.foldl_append]
  simp [jsIndexOf_eq_neg_one h]

/-- Witness for `C10` at the out-of-alphabet character `'!'`. -/
theorem shortcode_total_witness :
    jsIndexOf alphabet '!' = -1 ∧
      shortcodeToMediaId ("A".data ++ ['!'])
        = fpRound (fpRound (shortcodeToMediaId "A".data * 64) + (-1)) := by
  have h := shortcode_total_out_of_alphabet (c := '!') (by decide)
  exact ⟨h.1, h.2 "A".data⟩

/-!
Behaviour of `parseCookieString`: the object it builds is exactly the
per-segment extraction `segKV` folded with JavaScript property assignment,
and a segment with a second `"="` keeps only the part before it as value.
-/

theorem parse_step_eq (m : List (List Char × List Char)) (p : List Char) :
    (match splitChar '=' p with
      | key :: value :: _ =>
        if !key.isEmpty && !value.isEmpty then jsSet m (trimChars key) (trimChars value)
        else m
      | _ => m)
      = (match segKV p with
          | some kv => jsSet m kv.1 kv.2
          | none => m) := by
  cases h : splitChar '=' p with
  | nil => simp [segKV, h]
  | cons k rest =>
    cases rest with
    | nil => simp [segKV, h]
    | cons v t =>
      simp only [segKV, h]
      split <;> simp

theorem foldl_jsSet_filterMap (f : List Char → Option (List Char × List Char)) :
    ∀ (l : List (List Char)) (init : List (List Char × List Char)),
      l.foldl (fun m p => match f p with | some kv => jsSet m kv.1 kv.2 | none => m) init
        = (l.filterMap f).foldl (fun m kv => jsSet m kv.1 kv.2) init := by
  intro l
  induction l with
  | nil => intro init; rfl
  | cons p t ih =>
    intro init
    cases hf : f p <;> simp [List.filterMap_cons, hf, List.foldl_cons, ih]

theorem parseCookieString_eq_filterMap (s : List Char) :
    parseCookieString s
      = ((splitSemiSp s).filterMap segKV).foldl (fun m kv => jsSet m kv.1 kv.2) [] := by
  rw [parseCookieString]
  have hstep : (fun (cookies : List (List Char × List Char)) (part : List Char) =>
      match splitChar '=' part with
      | key :: value :: _ =>
        if !key.isEmpty && !value.isEmpty then jsSet cookies (trimChars key) (trimChars value)
        else cookies
      | _ => cookies)
      = fun m p => match segKV p with | some kv => jsSet m kv.1 kv.2 | none => m := by
    funext m p
    exact parse_step_eq m p
  rw [hstep, foldl_jsSet_filterMap]

theorem splitChar_append {sep : Char} {k : List Char} (hk : sep ∉ k) (r : List Char) :
    splitChar sep (k ++ sep :: r) = k :: splitChar sep r := by
  induction k with
  | nil => simp [splitChar]
  | cons x xs ih =>
    have hx : ¬(x = sep) := fun h => hk (h ▸ List.mem_cons_self x xs)
    have hxs : sep ∉ xs := fun h => hk (List.mem_cons_of_mem x h)
    rw [List.cons_append, splitChar, if_neg hx, ih hxs]
    rfl

/-- `C9`: the cookie parser keeps only segments (split on `"; "`) whose
`"="`-split yields a non-empty key and a non-empty value — the parse result
is exactly the kept key/value pairs folded with JavaScript property
assignment — and for a segment `k=a=b` (no `"="` inside `k` or `a`) the
stored value is only `a`, the part before the second `"="`; the remainder is
silently discarded. -/
theorem parse_cookie_segments (s k a b : List Char)
    (hkeq : '=' ∉ k) (haeq : '=' ∉ a) (hk : k ≠ []) (ha : a ≠ []) :
    parseCookieString s
        = ((splitSemiSp s).filterMap segKV).foldl (fun m kv => jsSet m kv.1 kv.2) [] ∧
      segKV (k ++ '=' :: (a ++ '=' :: b)) = some (trimChars k, trimChars a) := by
  refine ⟨parseCookieString_eq_filterMap s, ?_⟩
  have h1 : k.isEmpty = false := by cases k with | nil => exact absurd rfl hk | cons _ _ => rfl
  have h2 : a.isEmpty = false := by cases a with | nil => exact absurd rfl ha | cons _ _ => rfl
  simp only [segKV, splitChar_append hkeq, splitChar_append haeq, h1, h2]
  rfl

/-- Witness for `C9` on the session cookie string of the spec's end-to-end
scenario plus a `k=a=b` segment. -/
theorem parse_cookie_segments_witness :
    parseCookieString "csrftoken=abc123; k=a=b".data
        = ((splitSemiSp "csrftoken=abc123; k=a=b".data).filterMap segKV).foldl
            (fun m kv => jsSet m kv.1 kv.2) [] ∧
      segKV ("k".data ++ '=' :: ("a".data ++ '=' :: "b".data))
        = some (trimChars "k".data, trimChars "a".data) :=
  parse_cookie_segments "csrftoken=abc123; k=a=b".data "k".data "a".data "b".data
    (by decide) (by decide) (by decide) (by decide)

/-!
Activity-log lifecycle: on a store whose next id is fresh (an invariant of
every store reachable from the empty one, since `logId` only grows),
`createActivityLog` appends and the following `updateActivityLog` replaces
exactly the appended entry.
-/

theorem mapSet_fresh {logs : List ActivityLog} {id : Nat}
    (h : ∀ e ∈ logs, e.id ≠ id) (v : ActivityLog) : mapSet logs id v = logs ++ [v] := by
  have hany : logs.any (fun e => e.id == id) = false := by
    simp only [List.any_eq_false, beq_iff_eq]
    exact h
  simp [mapSet, hany]

theorem find?_append_fresh {logs : List ActivityLog} {id : Nat}
    (h : ∀ e ∈ logs, e.id ≠ id) {v : ActivityLog} (hv : v.id = id) :
    (logs ++ [v]).find? (fun e => e.id == id) = some v := by
  induction logs with
  | nil => simp [List.find?, hv]
  | cons x xs ih =>
    have hx : (x.id == id) = false := by
      simp only [beq_eq_false_iff_ne]
      exact h x (List.mem_cons_self x xs)
    simpa [List.find?_cons, hx] using ih (fun e he => h e (List.mem_cons_of_mem x he))

theorem mapSet_append_fresh {logs : List ActivityLog} {id : Nat}
    (h : ∀ e ∈ logs, e.id ≠ id) {v : ActivityLog} (hv : v.id = id) (u : ActivityLog) :
    mapSet (logs ++ [v]) id u = logs ++ [u] := by
  have hany : (logs ++ [v]).any (fun e => e.id == id) = true := by
    simp [List.any_append, hv]
  have hmap : logs.map (fun e => if e.id == id then u else e) = logs := by
    have hcong : ∀ e ∈ logs, (if e.id == id then u else e) = e := by
      intro e he
      have hne : (e.id == id) = false := by
        simp only [beq_eq_false_iff_ne]
        exact h e he
      simp [hne]
    calc logs.map (fun e => if e.id == id then u else e)
        = logs.map (fun e => e) := List.map_congr_left hcong
      _ = logs := by simp
  rw [mapSet, if_pos hany, List.map_append, hmap]
  simp [hv]

theorem updateActivityLog_eq {st1 : MemStorage} {id : Nat} {logs : List ActivityLog}
    {e : ActivityLog} (hlogs : st1.activityLogs = logs ++ [e])
    (hfresh : ∀ x ∈ logs, x.id ≠ id) (he : e.id = id) (stat : String) (now : Nat) :
    (updateActivityLog st1 id stat now).2
      = { st1 with
          activityLogs := logs ++ [{ e with status := stat, updatedAt := some now }] } := by
  have hfind : st1.activityLogs.find? (fun x => x.id == id) = some e := by
    rw [hlogs]
    exact find?_append_fresh hfresh he
  rw [updateActivityLog, hfind]
  simp only []
  rw [hlogs, mapSet_append_fresh hfresh he]

theorem create_update_exists (st : MemStorage) (input : LogEntryInput) (now : Nat) (b : Bool)
    (hfresh : ∀ e ∈ st.activityLogs, e.id ≠ st.logId) :
    ∃ pending : ActivityLog,
      pending.status = input.status ∧ pending.id = st.logId ∧
      pending.userId = input.userId ∧ pending.createdAt = now ∧ pending.updatedAt = none ∧
      (updateActivityLog (createActivityLog st input now).2 (createActivityLog st input now).1.id
          (if b then "success" else "failed") now).2.activityLogs
        = st.activityLogs
            ++ [{ pending with
                  status := (if b then "success" else "failed"),
                  updatedAt := some now }] ∧
      (updateActivityLog (createActivityLog st input now).2 (createActivityLog st input now).1.id
          (if b then "success" else "failed") now).2.logId = st.logId + 1 := by
  have hcreate : (createActivityLog st input now).2.activityLogs
      = st.activityLogs ++ [(createActivityLog st input now).1] := by
    have hrep : (createActivityLog st input now).2.activityLogs
        = mapSet st.activityLogs st.logId (createActivityLog st input now).1 := rfl
    rw [hrep, mapSet_fresh hfresh]
  have hupd := updateActivityLog_eq hcreate
    (fun x hx => hfresh x hx) (rfl : (createActivityLog st input now).1.id = st.logId)
    (if b then "success" else "failed") now
  refine ⟨(createActivityLog st input now).1, rfl, rfl, rfl, rfl, rfl, ?_, ?_⟩
  · show (updateActivityLog (createActivityLog st input now).2 st.logId
        (if b then "success" else "failed") now).2.activityLogs = _
    rw [hupd]
  · show (updateActivityLog (createActivityLog st input now).2 st.logId
        (if b then "success" else "failed") now).2.logId = _
    rw [hupd]
    rfl

/-- `C1`: for every dispatched action that passes field validation and
credential resolution, exactly one activity log entry is created — the
store gains exactly one entry, appended after the untouched existing
entries (so no entry regresses from a terminal status), created with status
`pending` — and that entry is then updated exactly once (only its status and
`updatedAt` change) to the terminal status `success`/`failed` that equals
the outcome of the returned result.  The remote operations of this
repository are total (each catches every fault and returns a result, `C6`),
so no raised remote fault reaches the route; the freshness hypothesis on
`logId` is the storage invariant of every store reachable from the empty
one, since ids are assigned from the strictly growing counter. -/
theorem run_creates_single_terminal_log_entry
    (st : MemStorage) (userId : Nat) (req : RunReq) (net : NetOracle) (now : Nat)
    (c : Cookie) (cs : List Cookie)
    (hc : getCookiesByUserId st userId = c :: cs)
    (hv : requiredFieldsOk req = true)
    (hfresh : ∀ e ∈ st.activityLogs, e.id ≠ st.logId) :
    (runAutomation st userId req net now).httpStatus = 200 ∧
    ∃ pending : ActivityLog,
      pending.status = "pending" ∧ pending.id = st.logId ∧
      pending.userId = userId ∧ pending.createdAt = now ∧ pending.updatedAt = none ∧
      (runAutomation st userId req net now).storage.activityLogs
        = st.activityLogs
            ++ [{ pending with
                  status := (if (runAutomation st userId req net now).body.success
                             then "success" else "failed"),
                  updatedAt := some now }] ∧
      (runAutomation st userId req net now).storage.logId = st.logId + 1 := by
  rw [requiredFieldsOk] at hv
  simp only [runAutomation, hc]
  split_ifs at hv with h1 h2 h3 h4 h5 h6 h7 h8
  · simp only [h1, hv, Bool.not_true, Bool.false_eq_true, eq_self_iff_true, if_true, if_false]
    exact ⟨trivial, create_update_exists st
      { userId := userId, type := req.type, accountUsername := jsOr req.username "Unknown",
        action := "Followed @" ++ req.username.getD "", status := "pending" } now
      (followUser (req.username.getD "") c.cookieString net).success hfresh⟩
  · simp only [h1, h2, hv, Bool.not_true, Bool.false_eq_true, eq_self_iff_true, if_true, if_false]
    exact ⟨trivial, create_update_exists st
      { userId := userId, type := req.type, accountUsername := jsOr req.username "Unknown",
        action := "Unfollowed @" ++ req.username.getD "", status := "pending" } now
      (unfollowUser (req.username.getD "") c.cookieString net).success hfresh⟩
  · simp only [h1, h2, h3, hv, Bool.not_true, Bool.false_eq_true, eq_self_iff_true, if_true, if_false]
    exact ⟨trivial, create_update_exists st
      { userId := userId, type := req.type, accountUsername := jsOr req.username "Unknown",
        action := "Liked post: " ++ req.postUrl.getD "", status := "pending" } now
      (likePost (req.postUrl.getD "") c.cookieString net).success hfresh⟩
  · simp only [h1, h2, h3, h4, hv, Bool.not_true, Bool.false_eq_true, eq_self_iff_true, if_true, if_false]
    exact ⟨trivial, create_update_exists st
      { userId := userId, type := req.type, accountUsername := jsOr req.username "Unknown",
        action := "Unliked post: " ++ req.postUrl.getD "", status := "pending" } now
      (unlikePost (req.postUrl.getD "") c.cookieString net).success hfresh⟩
  · rw [Bool.and_eq_true] at hv
    have hpq := hv
    simp only [h1, h2, h3, h4, h5, hpq.1, hpq.2, Bool.not_true, Bool.false_or, Bool.or_self,
      Bool.false_eq_true, eq_self_iff_true, if_true, if_false]
    exact ⟨trivial, create_update_exists st
      { userId := userId, type := req.type, accountUsername := jsOr req.username "Unknown",
        action := "Commented on post: " ++ req.postUrl.getD "", status := "pending" } now
      (commentPost (req.postUrl.getD "") (req.commentText.getD "") c.cookieString net).success hfresh⟩
  · simp only [h1, h2, h3, h4, h5, h6, hv, Bool.not_true, Bool.false_eq_true, eq_self_iff_true, if_true, if_false]
    exact ⟨trivial, create_update_exists st
      { userId := userId, type := req.type, accountUsername := jsOr req.username "Unknown",
        action := "Deleted comment: " ++ req.commentId.getD "", status := "pending" } now
      (deleteComment (jsOr req.postUrl "") (req.commentId.getD "") c.cookieString net).success hfresh⟩
  · simp only [h1, h2, h3, h4, h5, h6, h7, hv, Bool.not_true, Bool.false_eq_true, eq_self_iff_true, if_true, if_false]
    exact ⟨trivial, create_update_exists st
      { userId := userId, type := req.type, accountUsername := jsOr req.username "Unknown",
        action := "Retrieved profile info: @" ++ req.username.getD "", status := "pending" } now
      (getInstagramProfileInfo (req.username.getD "") c.cookieString net).success hfresh⟩
  · simp only [h1, h2, h3, h4, h5, h6, h7, h8, Bool.not_true, Bool.false_eq_true, eq_self_iff_true, if_true, if_false]
    exact ⟨trivial, create_update_exists st
      { userId := userId, type := req.type, accountUsername := jsOr req.username "Unknown",
        action := "Removed duplicate accounts", status := "pending" } now
      (removeDuplicateAccounts c.cookieString).success hfresh⟩

/-- Witness for `C1` on the spec's first end-to-end scenario:
`{type: "follow", username: "alice"}` with a valid credential and a
successful mocked remote call. -/
theorem run_single_entry_witness :
    (runAutomation sampleStorage 1 { type := "follow", username := some "alice" }
        sampleNet 5).httpStatus = 200 ∧
    ∃ pending : ActivityLog,
      pending.status = "pending" ∧ pending.id = sampleStorage.logId ∧
      pending.userId = 1 ∧ pending.createdAt = 5 ∧ pending.updatedAt = none ∧
      (runAutomation sampleStorage 1 { type := "follow", username := some "alice" }
          sampleNet 5).storage.activityLogs
        = sampleStorage.activityLogs
            ++ [{ pending with
                  status := (if (runAutomation sampleStorage 1
                                { type := "follow", username := some "alice" }
                                sampleNet 5).body.success
                             then "success" else "failed"),
                  updatedAt := some 5 }] ∧
      (runAutomation sampleStorage 1 { type := "follow", username := some "alice" }
          sampleNet 5).storage.logId = sampleStorage.logId + 1 :=
  run_creates_single_terminal_log_entry sampleStorage 1
    { type := "follow", username := some "alice" } sampleNet 5 sampleCookie []
    (by decide) (by decide) (by decide)

set_option maxRecDepth 10000 in
/-- `C2`: it was claimed that every dispatch with a malformed post URL fails
validation immediately with zero log entries.  Counterexample: the request
`{type: "comment", postUrl: "not-a-valid-url", commentText: "hi"}` passes
the route's field validation (both fields are present and truthy), so a
pending log entry is created before `commentPost` detects the malformed URL;
the dispatch returns the failure result as a 200 response and the store ends
with one entry, marked `failed` — not zero entries. -/
theorem comment_malformed_url_creates_log_entry_cex :
    (runAutomation sampleStorage 1
        { type := "comment", postUrl := some "not-a-valid-url", commentText := some "hi" }
        faultNet 0).body
      = { success := false, message := "Invalid post URL format" } ∧
    (runAutomation sampleStorage 1
        { type := "comment", postUrl := some "not-a-valid-url", commentText := some "hi" }
        faultNet 0).httpStatus = 200 ∧
    (runAutomation sampleStorage 1
        { type := "comment", postUrl := some "not-a-valid-url", commentText := some "hi" }
        faultNet 0).storage.activityLogs.length = 1 ∧
    (∀ e ∈ (runAutomation sampleStorage 1
        { type := "comment", postUrl := some "not-a-valid-url", commentText := some "hi" }
        faultNet 0).storage.activityLogs, e.status = "failed") := by
  refine ⟨?_, ?_, ?_, ?_⟩ <;> decide

/-- `C2` (amended): a malformed target post URL is detected inside the
remote client, not by the route's field validation.  When the kind-specific
required fields are present (for `comment`: post URL and comment text), the
dispatcher creates one pending log entry, the client returns the
`Invalid post URL format` failure without any remote call, and the entry is
updated to `failed`.  Zero log entries occur only when a required field
itself is missing (e.g. the spec's scenario 3 body, which has no
`commentText`, takes the 400 validation path before any log write). -/
theorem malformed_url_failure_after_log_entry
    (st : MemStorage) (userId : Nat) (req : RunReq) (net : NetOracle) (now : Nat)
    (c : Cookie) (cs : List Cookie)
    (hc : getCookiesByUserId st userId = c :: cs)
    (hfresh : ∀ e ∈ st.activityLogs, e.id ≠ st.logId)
    (htype : req.type = "comment")
    (hp : jsTruthy req.postUrl = true)
    (hq : jsTruthy req.commentText = true)
    (hext : extractShortcode (req.postUrl.getD "") = none) :
    (runAutomation st userId req net now).body
        = { success := false, message := "Invalid post URL format" } ∧
    ∃ pending : ActivityLog,
      pending.status = "pending" ∧
      (runAutomation st userId req net now).storage.activityLogs
        = st.activityLogs ++ [{ pending with status := "failed", updatedAt := some now }] := by
  have e1 : (req.type == "follow") = false := by rw [htype]; decide
  have e2 : (req.type == "unfollow") = false := by rw [htype]; decide
  have e3 : (req.type == "like") = false := by rw [htype]; decide
  have e4 : (req.type == "unlike") = false := by rw [htype]; decide
  have e5 : (req.type == "comment") = true := by rw [htype]; decide
  have hres : commentPost (req.postUrl.getD "") (req.commentText.getD "") c.cookieString net
      = { success := false, message := "Invalid post URL format" } := by
    rw [commentPost, hext]
  simp only [runAutomation, hc, e1, e2, e3, e4, e5, hp, hq, hres, Bool.not_true,
    Bool.false_or, Bool.or_self, Bool.false_eq_true, eq_self_iff_true, if_true, if_false]
  obtain ⟨p, hp1, _, _, _, _, hp6, _⟩ := create_update_exists st
    { userId := userId, type := req.type, accountUsername := jsOr req.username "Unknown",
      action := "Commented on post: " ++ req.postUrl.getD "", status := "pending" } now
    false hfresh
  refine ⟨trivial, p, hp1, ?_⟩
  simpa using hp6

/-- Witness for `C2` (amended) at a URL without the `/p/` segment. -/
theorem malformed_url_failure_witness :
    (runAutomation sampleStorage 1
        { type := "comment", postUrl := some "https://no-post-here", commentText := some "hello" }
        sampleNet 3).body
      = { success := false, message := "Invalid post URL format" } ∧
    ∃ pending : ActivityLog,
      pending.status = "pending" ∧
      (runAutomation sampleStorage 1
          { type := "comment", postUrl := some "https://no-post-here", commentText := some "hello" }
          sampleNet 3).storage.activityLogs
        = sampleStorage.activityLogs
            ++ [{ pending with status := "failed", updatedAt := some 3 }] :=
  malformed_url_failure_after_log_entry sampleStorage 1
    { type := "comment", postUrl := some "https://no-post-here", commentText := some "hello" }
    sampleNet 3 sampleCookie [] (by decide) (by decide) (by decide) (by decide) (by decide)
    (by decide)

set_option maxRecDepth 10000 in
/-- `C5`: it was claimed that every kind outside the seven enumerated ones
yields the generic `Unknown automation type` failure with no log entry.
Counterexample: the kind `"duplicates"` is not among the seven, yet the
route handles it — it creates a log entry and returns the success result of
`removeDuplicateAccounts`, not the generic failure. -/
theorem unknown_type_duplicates_cex :
    "duplicates" ∉ (["follow", "unfollow", "like", "unlike", "comment",
        "delete_comment", "profile_info"] : List String) ∧
    (runAutomation sampleStorage 1 { type := "duplicates" } faultNet 0).body
      = { success := true,
          message := "Duplicate account check completed. No duplicates found." } ∧
    (runAutomation sampleStorage 1 { type := "duplicates" } faultNet 0).body.message
      ≠ "Unknown automation type" ∧
    (runAutomation sampleStorage 1
        { type := "duplicates" } faultNet 0).storage.activityLogs.length = 1 := by
  refine ⟨?_, ?_, ?_, ?_⟩ <;> decide

/-- `C5` (amended): the switch handles eight kinds — the seven enumerated
ones plus `duplicates`.  For every request whose kind is outside these
eight, the dispatcher returns the generic `Unknown automation type` failure
as a 200 response and leaves the storage (in particular the activity log)
unchanged. -/
theorem unknown_type_generic_failure
    (st : MemStorage) (userId : Nat) (req : RunReq) (net : NetOracle) (now : Nat)
    (c : Cookie) (cs : List Cookie)
    (hc : getCookiesByUserId st userId = c :: cs)
    (hn : req.type ∉ (["follow", "unfollow", "like", "unlike", "comment",
        "delete_comment", "profile_info", "duplicates"] : List String)) :
    runAutomation st userId req net now
      = ⟨200, { success := false, message := "Unknown automation type" }, st⟩ := by
  simp only [List.mem_cons, List.mem_singleton, not_or] at hn
  obtain ⟨n1, n2, n3, n4, n5, n6, n7, n8⟩ := hn
  have e1 : (req.type == "follow") = false := beq_eq_false_iff_ne.mpr n1
  have e2 : (req.type == "unfollow") = false := beq_eq_false_iff_ne.mpr n2
  have e3 : (req.type == "like") = false := beq_eq_false_iff_ne.mpr n3
  have e4 : (req.type == "unlike") = false := beq_eq_false_iff_ne.mpr n4
  have e5 : (req.type == "comment") = false := beq_eq_false_iff_ne.mpr n5
  have e6 : (req.type == "delete_comment") = false := beq_eq_false_iff_ne.mpr n6
  have e7 : (req.type == "profile_info") = false := beq_eq_false_iff_ne.mpr n7
  have e8 : (req.type == "duplicates") = false := beq_eq_false_iff_ne.mpr n8.1
  simp only [runAutomation, hc, e1, e2, e3, e4, e5, e6, e7, e8,
    Bool.false_eq_true, if_false]

/-- Witness for `C5` (amended) at the unhandled kind `"scrape"`. -/
theorem unknown_type_generic_failure_witness :
    runAutomation sampleStorage 1 { type := "scrape" } sampleNet 0
      = ⟨200, { success := false, message := "Unknown automation type" }, sampleStorage⟩ :=
  unknown_type_generic_failure sampleStorage 1 { type := "scrape" } sampleNet 0
    sampleCookie [] (by decide) (by decide)

/-- `C7`: when the credential lookup for the user returns the empty list,
the dispatcher responds immediately with the 400 `No cookies available`
failure, the storage (hence the activity log) is unchanged, and no remote
call is made — the outcome is identical under every network oracle. -/
theorem no_credentials_immediate_failure
    (st : MemStorage) (userId : Nat) (req : RunReq) (net net2 : NetOracle) (now : Nat)
    (hc : getCookiesByUserId st userId = []) :
    runAutomation st userId req net now
      = ⟨400, { success := false,
                message := "No cookies available. Please add an account or cookie first." },
          st⟩ ∧
    runAutomation st userId req net now = runAutomation st userId req net2 now := by
  constructor <;> simp only [runAutomation, hc]

/-- Witness for `C7` on an empty credential store. -/
theorem no_credentials_witness :
    runAutomation { cookies := [], activityLogs := [], cookieId := 1, logId := 1 } 1
        { type := "follow", username := some "alice" } sampleNet 0
      = ⟨400, { success := false,
                message := "No cookies available. Please add an account or cookie first." },
          { cookies := [], activityLogs := [], cookieId := 1, logId := 1 }⟩ ∧
    runAutomation { cookies := [], activityLogs := [], cookieId := 1, logId := 1 } 1
        { type := "follow", username := some "alice" } sampleNet 0
      = runAutomation { cookies := [], activityLogs := [], cookieId := 1, logId := 1 } 1
          { type := "follow", username := some "alice" } faultNet 0 :=
  no_credentials_immediate_failure
    { cookies := [], activityLogs := [], cookieId := 1, logId := 1 } 1
    { type := "follow", username := some "alice" } sampleNet faultNet 0 (by decide)

/-- `C8`: for every user id, limit and activity-log state, listing the log
by user returns only entries of that user that are in the store, in
descending creation-time order, and never more than `limit` of them. -/
theorem activity_logs_by_user_sorted_limited (st : MemStorage) (userId limit : Nat) :
    (∀ e ∈ getActivityLogsByUserId st userId limit,
        e.userId = userId ∧ e ∈ st.activityLogs) ∧
    List.Sorted logGE (getActivityLogsByUserId st userId limit) ∧
    (getActivityLogsByUserId st userId limit).length ≤ limit := by
  refine ⟨?_, ?_, ?_⟩
  · intro e he
    have hsort : e ∈ List.insertionSort logGE
        (st.activityLogs.filter (fun l => l.userId == userId)) :=
      List.mem_of_mem_take he
    have hfilter : e ∈ st.activityLogs.filter (fun l => l.userId == userId) :=
      (List.perm_insertionSort logGE _).mem_iff.mp hsort
    have := List.mem_filter.mp hfilter
    exact ⟨by simpa using this.2, this.1⟩
  · exact List.Pairwise.sublist (List.take_sublist limit _)
      (List.sorted_insertionSort logGE _)
  · exact List.length_take_le limit _

/-- Witness for `C8` on a three-entry log with limit 2. -/
theorem activity_logs_sorted_witness :
    (sampleLogB.userId = 1 ∧ sampleLogB ∈ sampleStorageWithLogs.activityLogs) ∧
    List.Sorted logGE (getActivityLogsByUserId sampleStorageWithLogs 1 2) ∧
    (getActivityLogsByUserId sampleStorageWithLogs 1 2).length ≤ 2 := by
  have h := activity_logs_by_user_sorted_limited sampleStorageWithLogs 1 2
  exact ⟨h.1 sampleLogB (by decide), h.2.1, h.2.2⟩

/-- `C6`: every Remote Action Client operation converts transport-level
faults into a failure result carrying the underlying error text; in this
embedding each operation is a total function into `ActionResult` — the
translation of the source's all-enclosing `try`/`catch` — so no raised
exception can escape to the dispatcher, and every dispatch path returns a
structured result.  The conjuncts below pin the exact failure result each of
the seven operations returns when its outbound call rejects with error text
`e` — for the two-step follow/unfollow both when the profile resolution
itself rejects (`net`) and when it succeeds but the mutation rejects
(`netOk`). -/
theorem client_faults_return_structured_failure
    (username postUrl commentText commentId cookieStr e uid : String)
    (net netOk : NetOracle) (sc : List Char) (pr : ProfileResp)
    (hprofile : net.profile = .error e)
    (hmut : net.mutation = .error e)
    (hok : netOk.profile = .ok pr) (hst : pr.status = 200) (huid : pr.userId = some uid)
    (hmut2 : netOk.mutation = .error e)
    (hext : extractShortcode postUrl = some sc) :
    followUser username cookieStr net
      = { success := false, message := "Error following " ++ username ++ ": " ++ e } ∧
    unfollowUser username cookieStr net
      = { success := false, message := "Error unfollowing " ++ username ++ ": " ++ e } ∧
    followUser username cookieStr netOk
      = { success := false, message := "Error following " ++ username ++ ": " ++ e } ∧
    unfollowUser username cookieStr netOk
      = { success := false, message := "Error unfollowing " ++ username ++ ": " ++ e } ∧
    likePost postUrl cookieStr net
      = { success := false, message := "Error liking post: " ++ e } ∧
    unlikePost postUrl cookieStr net
      = { success := false, message := "Error unliking post: " ++ e } ∧
    commentPost postUrl commentText cookieStr net
      = { success := false, message := "Error commenting on post: " ++ e } ∧
    deleteComment postUrl commentId cookieStr net
      = { success := false, message := "Error deleting comment: " ++ e } ∧
    getInstagramProfileInfo username cookieStr net
      = { success := false, message := "Error getting profile info: " ++ e } := by
  refine ⟨?_, ?_, ?_, ?_, ?_, ?_, ?_, ?_, ?_⟩
  · rw [followUser, hprofile]
  · rw [unfollowUser, hprofile]
  · rw [followUser, hok]
    simp [hst, huid, hmut2]
  · rw [unfollowUser, hok]
    simp [hst, huid, hmut2]
  · rw [likePost, hext, hmut]
  · rw [unlikePost, hext, hmut]
  · rw [commentPost, hext, hmut]
  · rw [deleteComment, hmut]
  · rw [getInstagramProfileInfo, hprofile]

/-- Witness for `C6` with a DNS-failure oracle and the scenario post URL. -/
theorem client_faults_witness :
    followUser "alice" "csrftoken=abc123" faultNet
      = { success := false,
          message := "Error following alice: getaddrinfo ENOTFOUND www.instagram.com" } ∧
    followUser "alice" "csrftoken=abc123" mixedNet
      = { success := false,
          message := "Error following alice: getaddrinfo ENOTFOUND www.instagram.com" } ∧
    likePost "https://example.com/p/ABC123/" "csrftoken=abc123" faultNet
      = { success := false,
          message := "Error liking post: getaddrinfo ENOTFOUND www.instagram.com" } := by
  have h := client_faults_return_structured_failure "alice" "https://example.com/p/ABC123/"
    "hi" "77" "csrftoken=abc123" "getaddrinfo ENOTFOUND www.instagram.com" "55"
    faultNet mixedNet "ABC123".data { status := 200, userId := some "55" }
    (by decide) (by decide) (by decide) (by decide) (by decide)
    (by decide) (by decide)
  exact ⟨h.1, h.2.2.1, h.2.2.2.2.1⟩
